import Mathlib

/-!
Verification of the research planner/executor agent
(`research_planner_executor_agent.py`) and the document export utilities
(`utils.py`).

The Python source is shallowly embedded: strings are handled as their
lists of characters, the remote interaction client is an abstract
function from call index to a result, Streamlit session state is an
explicit record, and each user-triggered phase is a transition of a step
function over that record.
-/

namespace ResearchPlanner

/- ### Structured-text task parser (`parse_tasks`)

The Python parser runs
`re.finditer(r'^(\d+)[\.\)\-]\s*(.+?)(?=\n\d+[\.\)\-]|\n\n|\Z)', text,
re.MULTILINE | re.DOTALL)`.  The embedding below implements exactly the
semantics of that pattern under those flags:

* `^` (MULTILINE) anchors at the start of the text or right after `'\n'`;
* `\d+` is a maximal nonempty digit run (no backtracking is possible
  because a separator is never a digit);
* `[\.\)\-]` is a single separator character;
* `\s*` greedily takes whitespace (including newlines); it backtracks by
  exactly one character only when nothing remains for `(.+?)`, which
  needs at least one character;
* `(.+?)` (DOTALL) lazily extends one character at a time until the
  lookahead `(?=\n\d+[\.\)\-]|\n\n|\Z)` holds; the `\Z` alternative
  guarantees the lookahead holds at the end of the text, so `\s*` never
  backtracks further;
* `finditer` scans left to right and resumes after each match's end.
-/

/-- One parsed task, the dict `{"num": ..., "text": ...}` built by
`parse_tasks`. -/
structure Task where
  num : String
  text : String
deriving Repr, DecidableEq

/-- Characters accepted by the separator class `[\.\)\-]`. -/
def isSepChar (c : Char) : Bool :=
  c = '.' || c = ')' || c = '-'

/-- Python `\s` on ASCII text: space, tab, newline, carriage return,
vertical tab, form feed. -/
def isPySpace (c : Char) : Bool :=
  c = ' ' || c = '\t' || c = '\n' || c = '\r' || c = '\x0b' || c = '\x0c'

/-- After skipping a (possibly empty) digit run, the next character is a
separator.  Used for the `\d+[\.\)\-]` part of the lookahead. -/
def afterDigitsSep : List Char → Bool
  | [] => false
  | c :: rest => if c.isDigit then afterDigitsSep rest else isSepChar c

/-- `\d+[\.\)\-]` at the head of the list: a nonempty digit run followed
immediately by a separator. -/
def digitsThenSep : List Char → Bool
  | [] => false
  | c :: rest => c.isDigit && afterDigitsSep rest

/-- The lookahead `(?=\n\d+[\.\)\-]|\n\n|\Z)` at the given suffix. -/
def nextMarker : List Char → Bool
  | [] => true
  | c :: rest =>
    if c = '\n' then
      match rest with
      | '\n' :: _ => true
      | _ => digitsThenSep rest
    else false

/-- Lazy body capture `(.+?)` (DOTALL) up to the lookahead: consume
characters one at a time, stopping as soon as the lookahead holds on the
remainder.  Returns the captured body and the remainder. -/
def takeBody : List Char → List Char × List Char
  | [] => ([], [])
  | c :: rest =>
    if nextMarker rest then ([c], rest)
    else
      let p := takeBody rest
      (c :: p.1, p.2)

/-- Python `str.strip()` on ASCII text. -/
def pyStrip (l : List Char) : List Char :=
  ((l.dropWhile isPySpace).reverse.dropWhile isPySpace).reverse

/-- Python `str.replace('\n', ' ')`. -/
def newlineToSpace (l : List Char) : List Char :=
  l.map fun c => if c = '\n' then ' ' else c

/-- Attempt the full pattern at a line-start position.  On success,
returns the digit group, the raw body group, and the remainder of the
text after the match. -/
def matchItem (l : List Char) : Option (List Char × List Char × List Char) :=
  let ds := l.takeWhile Char.isDigit
  let r1 := l.dropWhile Char.isDigit
  if ds.isEmpty then none
  else
    match r1 with
    | [] => none
    | c :: r2 =>
      if isSepChar c then
        let w := r2.takeWhile isPySpace
        let r3 := r2.dropWhile isPySpace
        match r3 with
        | [] =>
          -- `\s*` consumed everything; it backtracks one character so
          -- that `(.+?)` can take it, and `\Z` closes the lookahead.
          match w.getLast? with
          | none => none
          | some lastWs => some (ds, [lastWs], [])
        | _ :: _ =>
          let p := takeBody r3
          some (ds, p.1, p.2)
      else none

/-- `finditer` scan: try the pattern at every MULTILINE line start, and
resume after each match.  `atStart` says whether the current position is
anchored (text start or just after `'\n'`).  The fuel is an upper bound
on remaining characters; every step consumes at least one character. -/
def scanTasks : Nat → List Char → Bool → List Task
  | 0, _, _ => []
  | _ + 1, [], _ => []
  | fuel + 1, c :: rest, atStart =>
    if atStart then
      match matchItem (c :: rest) with
      | some (ds, b, r) =>
        { num := String.mk ds
          text := String.mk (newlineToSpace (pyStrip b)) } ::
          scanTasks fuel r (b.getLast? == some '\n')
      | none => scanTasks fuel rest (c == '\n')
    else scanTasks fuel rest (c == '\n')

/-- `parse_tasks`: parses the research plan text into a list of tasks. -/
def parse_tasks (text : String) : List Task :=
  scanTasks text.data.length text.data true

/- ### Interactions and `get_text` -/

/-- The view of a remote Interaction used by the program: its opaque id,
its status string, and its outputs.  An output is modelled by the text it
carries: `none` marks an output with no `text` attribute at all, and
`some ""` an empty one; both are skipped by `get_text`. -/
structure Interaction where
  id : String
  status : String
  outputs : List (Option String)
deriving Repr, DecidableEq

/-- `get_text`: joins the truthy `text` fields of the outputs with
newlines (`"\n".join(o.text for o in outputs if hasattr(o, 'text') and
o.text) or ""`; the join of nothing is already `""`). -/
def get_text (outputs : List (Option String)) : String :=
  String.intercalate "\n" ((outputs.filterMap id).filter (· ≠ ""))

/- ### Completion poller (`wait_for_completion`)

The remote status client is an abstract deterministic trace: call index
`n` (the number of `client.interactions.get` calls already made) maps to
that call's outcome, `Except.error` standing for a raised exception.

The Python loop is

```
elapsed = 0
while elapsed < timeout:
    try:
        interaction = client.interactions.get(interaction_id)
        if interaction.status != "in_progress":
            return interaction
        ... progress bar ...
        time.sleep(POLLING_INTERVAL)
        elapsed += POLLING_INTERVAL
    except Exception as e:
        st.error(...)
        break
return client.interactions.get(interaction_id)
```

The loop recursion is driven by a fuel parameter so that the model stays
kernel-computable.  Since `elapsed` starts at 0 and grows by
`POLLING_INTERVAL ≥ 1` on every iteration while `elapsed < timeout`
holds, `timeout + 1` units of fuel are always sufficient, and the
zero-fuel branch returns exactly what the exhausted guard returns.
-/

def POLLING_INTERVAL : Nat := 3

def TIMEOUT : Nat := 300

/-- A status-client trace: result of the `n`-th `get` call (0-based). -/
abbrev GetStatus := Nat → Except String Interaction

/-- The call returned normally with status `"in_progress"`. -/
def okInProgress : Except String Interaction → Bool
  | .ok i => i.status = "in_progress"
  | .error _ => false

/-- The call raised. -/
def isErr : Except String Interaction → Bool
  | .ok _ => false
  | .error _ => true

/-- How the `while` loop ended: an early `return interaction`, or falling
through (query failure `break`, or `elapsed < timeout` exhausted). -/
inductive LoopExit where
  | done (i : Interaction)
  | fallthrough
deriving Repr, DecidableEq

/-- The polling `while` loop.  Arguments beyond the client and timeout:
fuel, current `elapsed`, and the index of the next `get` call.  Returns
how the loop ended, the number of `get` calls it made, and the number of
`time.sleep(POLLING_INTERVAL)` suspensions it performed. -/
def waitLoop (get : GetStatus) (timeout : Nat) : Nat → Nat → Nat → LoopExit × Nat × Nat
  | 0, _, _ => (.fallthrough, 0, 0)
  | fuel + 1, elapsed, n =>
    if elapsed < timeout then
      match get n with
      | .ok i =>
        if i.status = "in_progress" then
          let r := waitLoop get timeout fuel (elapsed + POLLING_INTERVAL) (n + 1)
          (r.1, r.2.1 + 1, r.2.2 + 1)
        else (.done i, 1, 0)
      | .error _ => (.fallthrough, 1, 0)
    else (.fallthrough, 0, 0)

instance {ε α : Type} [DecidableEq ε] [DecidableEq α] : DecidableEq (Except ε α) := fun
  | .ok a, .ok b =>
    if h : a = b then .isTrue (by rw [h])
    else .isFalse (by intro hc; cases hc; exact h rfl)
  | .ok _, .error _ => .isFalse (by intro hc; cases hc)
  | .error _, .ok _ => .isFalse (by intro hc; cases hc)
  | .error a, .error b =>
    if h : a = b then .isTrue (by rw [h])
    else .isFalse (by intro hc; cases hc; exact h rfl)

/-- Observable outcome of `wait_for_completion`: the returned Interaction
(or the propagated exception of the final unconditional `get`), the total
number of `get` calls made, and the wall-clock seconds spent sleeping. -/
structure WaitOutcome where
  result : Except String Interaction
  totalCalls : Nat
  sleepSeconds : Nat
deriving Repr, DecidableEq

/-- `wait_for_completion`: poll until the interaction leaves
`"in_progress"` or the timeout elapses; on loop fallthrough, issue one
final unconditional `get` whose result (or exception) is the caller's. -/
def wait_for_completion (get : GetStatus) (timeout : Nat) : WaitOutcome :=
  match waitLoop get timeout (timeout + 1) 0 0 with
  | (.done i, c, s) => ⟨.ok i, c, POLLING_INTERVAL * s⟩
  | (.fallthrough, c, s) => ⟨get c, c + 1, POLLING_INTERVAL * s⟩

/-- `⌈a / b⌉` on naturals. -/
def ceilDiv (a b : Nat) : Nat := (a + b - 1) / b

/- ### Phase orchestrator (`main`)

Streamlit session state is an explicit record; each user-triggered phase
(`Generate Plan`, `Start Deep Research`, `Generate Executive Report`,
`Reset`) is one event of a step function.  An event carries the outcomes
of the remote calls the phase would issue (an abstract trace for the
polling client); the conditions under which the triggering button is
rendered and enabled become guards of the step function, a disabled or
absent button being modelled as a no-op event. -/

/-- Image bytes, as a byte list. -/
abbrev Bytes := List Nat

/-- The orchestrator's session state (`st.session_state`). -/
structure SessionState where
  plan_id : Option String
  plan_text : Option String
  tasks : List Task
  research_id : Option String
  research_text : Option String
  synthesis_text : Option String
  infographic : Option Bytes
deriving Repr, DecidableEq

/-- `init_session_state` defaults (also the result of
`reset_session_state`): every field empty. -/
def init_session_state : SessionState :=
  { plan_id := none, plan_text := none, tasks := [], research_id := none
    research_text := none, synthesis_text := none, infographic := none }

/-- Python truthiness of an optional string field: present and
nonempty. -/
def truthyStr : Option String → Bool
  | none => false
  | some s => s ≠ ""

/-- Python truthiness of the optional infographic bytes: present and
nonempty. -/
def truthyBytes : Option Bytes → Bool
  | none => false
  | some b => b ≠ []

/-- The `selected_tasks` list built from the checkbox values: for each
checked task, the string `f"{task['num']}. {task['text']}"`. -/
def selectedTasks (tasks : List Task) (sel : List Bool) : List String :=
  (tasks.zip sel).filterMap fun p =>
    if p.2 then some (p.1.num ++ ". " ++ p.1.text) else none

/-- A user-triggered phase event, carrying the remote outcomes the phase
would observe.  `startResearch` carries the checkbox values, the result
of `interactions.create`, and the status-client trace consumed by
`wait_for_completion`; `generateReport` carries the synthesis
`interactions.create` result and the `generate_content` result, the
latter's content parts each optionally holding `inline_data` bytes. -/
inductive Event where
  | generatePlan (goal : String) (res : Except String Interaction)
  | startResearch (sel : List Bool) (createRes : Except String Interaction)
      (statusClient : GetStatus)
  | generateReport (synthRes : Except String Interaction)
      (imgRes : Except String (List (Option Bytes)))
  | reset

/-- One step of the orchestrator: the session-state effect of one
user-triggered phase, given the carried remote outcomes. -/
def step (s : SessionState) : Event → SessionState
  | .reset => init_session_state
  | .generatePlan goal res =>
    -- button `disabled=not research_goal`
    if goal = "" then s
    else
      match res with
      | .error _ => s  -- `except`: only `st.error`, no assignment
      | .ok i =>
        let t := get_text i.outputs
        { s with plan_id := some i.id, plan_text := some t
                 tasks := parse_tasks t }
  | .startResearch sel createRes statusClient =>
    -- section shown under `if st.session_state.plan_text:`,
    -- button `disabled=not selected_tasks`
    if truthyStr s.plan_text && !(selectedTasks s.tasks sel).isEmpty then
      match createRes with
      | .error _ => s
      | .ok _ =>
        -- `interaction = wait_for_completion(client, interaction.id)`;
        -- a raise from the final status query is caught by the outer
        -- `except`, which performs no assignment
        match (wait_for_completion statusClient TIMEOUT).result with
        | .error _ => s
        | .ok i =>
          let t := get_text i.outputs
          { s with research_id := some i.id
                   research_text :=
                     some (if t ≠ "" then t else "Status: " ++ i.status) }
    else s
  | .generateReport synthRes imgRes =>
    -- section shown under `if st.session_state.research_id:`
    if truthyStr s.research_id then
      match synthRes with
      | .error _ => s  -- `st.error` then `st.stop()`: script halts here
      | .ok i =>
        let s1 := { s with synthesis_text := some (get_text i.outputs) }
        match imgRes with
        | .error _ => s1  -- `st.warning` only: non-fatal
        | .ok parts =>
          -- first part carrying inline data, if any
          match parts.findSome? id with
          | some b => { s1 with infographic := some b }
          | none => s1
    else s

/-- The state reached from a fresh session by a sequence of
user-triggered events. -/
def run (events : List Event) : SessionState :=
  events.foldl step init_session_state

/-- The report view renders the stored infographic above the synthesis
text exactly when both `if st.session_state.synthesis_text:` and the
nested `if st.session_state.infographic:` are truthy. -/
def reportShowsInfographic (s : SessionState) : Bool :=
  truthyStr s.synthesis_text && truthyBytes s.infographic

/-- The phase-order invariant of the session state: a truthy plan text
implies a stored plan interaction id, a stored research interaction id
implies a stored plan interaction id, and a stored synthesis text
implies a stored research interaction id. -/
def SessionInv (s : SessionState) : Prop :=
  (truthyStr s.plan_text = true → s.plan_id.isSome = true) ∧
  (s.research_id.isSome = true → s.plan_id.isSome = true) ∧
  (s.synthesis_text.isSome = true → s.research_id.isSome = true)

/- ### Concrete fixtures used to instantiate the theorems -/

/-- A status client that always reports `in_progress` and never fails. -/
def alwaysInProgress : GetStatus := fun _ => .ok ⟨"job", "in_progress", []⟩

/-- A status client whose first non-`in_progress` report happens at the
second call (elapsed time `POLLING_INTERVAL`). -/
def completesAtSecondCall : GetStatus := fun n =>
  if n = 0 then .ok ⟨"job", "in_progress", []⟩
  else .ok ⟨"job", "completed", [some "r"]⟩

/-- A status client that reports `in_progress`, then raises once at its
second call, then reports `in_progress` again. -/
def failsAtSecondCall : GetStatus := fun n =>
  if n = 1 then .error "transport error" else .ok ⟨"job", "in_progress", []⟩

/-- A completed plan interaction carrying a two-item numbered plan. -/
def planInteraction : Interaction :=
  ⟨"plan-1", "completed", [some "1. Find data - details\n2) Check sources"]⟩

/-- A status client whose very first report is a completed research
interaction. -/
def researchDoneClient : GetStatus :=
  fun _ => .ok ⟨"res-1", "completed", [some "findings"]⟩

/-- A completed synthesis interaction carrying the report text. -/
def synthInteraction : Interaction :=
  ⟨"syn-1", "completed", [some "Report body"]⟩

/-- An event trace that generates a plan and runs the research phase to
completion. -/
def demoTrace : List Event :=
  [.generatePlan "B2B HR SaaS market in Germany" (.ok planInteraction),
   .startResearch [true, true] (.ok ⟨"res-0", "in_progress", []⟩)
     researchDoneClient]

/-- A session state in the `RESEARCHED` phase with no infographic. -/
def researchedState : SessionState :=
  { plan_id := some "plan-1", plan_text := some "1. Find data"
    tasks := [⟨"1", "Find data"⟩], research_id := some "res-1"
    research_text := some "findings", synthesis_text := none
    infographic := none }

/-- A `RESEARCHED` state that still holds infographic bytes stored by an
earlier Generate Report run. -/
def staleState : SessionState :=
  { researchedState with infographic := some [137, 80, 78, 71] }

end ResearchPlanner

namespace ResearchUtils

open ResearchPlanner (pyStrip isPySpace)

/- ### Document exporters (`utils.py`)

`generate_docx` and `generate_pdf` are modelled as the abstract document
they build: for DOCX the sequence of headings, bullet paragraphs and
run-lists added to the python-docx `Document`, and for PDF the sequence
of drawing operations issued to the FPDF object.  Both process the input
line by line after splitting on `'\n'`. -/

/-- Python `str.split(sep)` for a single-character separator: split into
the (possibly empty) stretches between occurrences of `sep`; the empty
string splits to `[""]`. -/
def splitOnChar (sep : Char) : List Char → List (List Char)
  | [] => [[]]
  | c :: rest =>
    match splitOnChar sep rest with
    | [] => [[]]
    | g :: gs => if c = sep then [] :: g :: gs else (c :: g) :: gs

/-- The head of the list directly starts with the given character
pattern. -/
def strStarts : List Char → List Char → Bool
  | [], _ => true
  | _ :: _, [] => false
  | p :: ps, c :: cs => p == c && strStarts ps cs

/-- Lazy bold matcher: given the characters after an opening `\*\*`,
find the shortest `.*?` middle (newline-free, `.` without DOTALL)
followed by a closing `\*\*`.  Returns the middle and the characters
after the closing marker. -/
def takeBoldMid : List Char → Option (List Char × List Char)
  | '*' :: '*' :: rest => some ([], rest)
  | [] => none
  | c :: rest =>
    if c = '\n' then none
    else
      match takeBoldMid rest with
      | some (m, r) => some (c :: m, r)
      | none => none

/-- `re.split(r'(\*\*.*?\*\*)', line)`: scan left to right; each match
of the capturing group becomes its own part, and the (possibly empty)
gaps between matches — including a leading and a trailing gap — are the
remaining parts.  `acc` is the current gap reversed; the fuel is an
upper bound on the remaining characters. -/
def splitBoldAux : Nat → List Char → List Char → List (List Char)
  | _, acc, [] => [acc.reverse]
  | 0, acc, _ => [acc.reverse]
  | fuel + 1, acc, '*' :: '*' :: r2 =>
    match takeBoldMid r2 with
    | some (m, r) =>
      acc.reverse :: ('*' :: '*' :: (m ++ ['*', '*'])) :: splitBoldAux fuel [] r
    | none => splitBoldAux fuel ('*' :: acc) ('*' :: r2)
  | fuel + 1, acc, c :: rest => splitBoldAux fuel (c :: acc) rest

/-- `re.split(r'(\*\*.*?\*\*)', line)` on a line's characters. -/
def splitBold (l : List Char) : List (List Char) :=
  splitBoldAux l.length [] l

/-- Python `part[2:-2]`. -/
def drop2both (l : List Char) : List Char :=
  (l.drop 2).reverse.drop 2 |>.reverse

/-- One text run of a DOCX paragraph: its text and whether `run.bold`
was set. -/
structure DocxRun where
  text : String
  bold : Bool
deriving Repr, DecidableEq

/-- One block added to the DOCX document: a heading with its level, a
`List Bullet` paragraph, or a plain paragraph with its runs. -/
inductive DocxBlock where
  | heading (level : Nat) (text : String)
  | bullet (text : String)
  | para (runs : List DocxRun)
deriving Repr, DecidableEq

/-- The runs added for a plain paragraph line: one `add_run` per part of
the bold split; a part enclosed in `**` markers becomes a bold run of
its interior (`part[2:-2]`), any other part — empty ones included — an
unstyled run. -/
def paraRuns (l : List Char) : List DocxRun :=
  (splitBold l).map fun part =>
    if strStarts ['*', '*'] part && strStarts ['*', '*'] part.reverse then
      { text := String.mk (drop2both part), bold := true }
    else
      { text := String.mk part, bold := false }

/-- The block (if any) that `generate_docx` adds for one input line;
lines blank after stripping are skipped. -/
def docxLine (l : List Char) : Option DocxBlock :=
  if (pyStrip l).isEmpty then none
  else if strStarts ['#', ' '] l then
    some (.heading 1 (String.mk (pyStrip (l.drop 2))))
  else if strStarts ['#', '#', ' '] l then
    some (.heading 2 (String.mk (pyStrip (l.drop 3))))
  else if strStarts ['#', '#', '#', ' '] l then
    some (.heading 3 (String.mk (pyStrip (l.drop 4))))
  else if strStarts ['*', ' '] l || strStarts ['-', ' '] l then
    some (.bullet (String.mk (pyStrip (l.drop 2))))
  else
    some (.para (paraRuns l))

/-- `generate_docx`: the title heading (`add_heading('Research Report',
0)`) followed by one block per non-blank input line. -/
def generate_docx (text : String) : List DocxBlock :=
  DocxBlock.heading 0 "Research Report" ::
    (splitOnChar '\n' text.data).filterMap docxLine

/- ### PDF exporter -/

/-- `clean_text`: `text.encode('latin-1', 'replace').decode('latin-1')`
— every character outside Latin-1 (code point above 255) becomes
`'?'`. -/
def clean_text (l : List Char) : List Char :=
  l.map fun c => if c.toNat ≤ 255 then c else '?'

/-- Python `str.replace(ab, '')` for a two-character pattern: delete
non-overlapping occurrences left to right (used for `'**'` and
`'__'`). -/
def removePairs (a b : Char) : List Char → List Char
  | [] => []
  | [c] => [c]
  | c :: d :: rest =>
    if c = a && d = b then removePairs a b rest
    else c :: removePairs a b (d :: rest)

/-- One drawing operation issued to the FPDF object. -/
inductive PdfOp where
  | setFont (family style : String) (size : Nat)
  | setX (x : Nat)
  | multiCell (height : Nat) (text : String)
  | ln (h : Nat)
deriving Repr, DecidableEq

/-- The operations `generate_pdf` issues for one input line: the line is
first passed through `clean_text`, then classified as blank, heading,
bullet, or plain paragraph (the plain branch strips the `**` and `__`
markers). -/
def pdfLine (raw : List Char) : List PdfOp :=
  let l := clean_text raw
  if (pyStrip l).isEmpty then [.ln 5]
  else if strStarts ['#', ' '] l then
    [.setFont "Helvetica" "B" 16,
     .multiCell 10 (String.mk (pyStrip (l.drop 2))),
     .setFont "Helvetica" "" 12]
  else if strStarts ['#', '#', ' '] l then
    [.setFont "Helvetica" "B" 14,
     .multiCell 10 (String.mk (pyStrip (l.drop 3))),
     .setFont "Helvetica" "" 12]
  else if strStarts ['#', '#', '#', ' '] l then
    [.setFont "Helvetica" "B" 13,
     .multiCell 10 (String.mk (pyStrip (l.drop 4))),
     .setFont "Helvetica" "" 12]
  else if strStarts ['*', ' '] l || strStarts ['-', ' '] l then
    [.setX 20, .multiCell 8 (String.mk ('\x95' :: ' ' :: pyStrip (l.drop 2)))]
  else
    [.multiCell 8 (String.mk (removePairs '_' '_' (removePairs '*' '*' l)))]

/-- `generate_pdf`: the page header drawn by `add_page` (a bold
`'Research Report'` cell), the body font, then the operations for each
line of the input. -/
def generate_pdf (text : String) : List PdfOp :=
  PdfOp.setFont "Helvetica" "B" 12 ::
    PdfOp.multiCell 10 "Research Report" ::
    PdfOp.setFont "Helvetica" "" 12 ::
    (splitOnChar '\n' text.data).flatMap pdfLine

/-- A string every character of which is representable in Latin-1 — the
condition under which FPDF's core-font text rendering cannot hit an
unencodable character. -/
def latin1Safe (s : String) : Bool :=
  s.data.all fun c => c.toNat ≤ 255

/-- Every piece of text carried by a PDF operation is Latin-1 safe. -/
def pdfOpSafe : PdfOp → Bool
  | .setFont fam sty _ => latin1Safe fam && latin1Safe sty
  | .setX _ => true
  | .multiCell _ t => latin1Safe t
  | .ln _ => true

end ResearchUtils

/-! ## Theorems -/

namespace ResearchPlanner

/- ### Helper lemmas: parser and exporters -/

theorem pyStrip_subset (l : List Char) : pyStrip l ⊆ l := by
  intro c hc
  unfold pyStrip at hc
  rw [List.mem_reverse] at hc
  have h1 := (List.dropWhile_sublist isPySpace).subset hc
  rw [List.mem_reverse] at h1
  exact (List.dropWhile_sublist isPySpace).subset h1

end ResearchPlanner

namespace ResearchUtils

theorem removePairs_subset (a b : Char) (l : List Char) :
    removePairs a b l ⊆ l := by
  induction l using removePairs.induct a b with
  | case1 => simp [removePairs]
  | case2 c => simp [removePairs]
  | case3 c d rest hcd ih =>
    simp only [removePairs, hcd, if_true]
    exact ih.trans (by intro x hx; simp only [List.mem_cons]; tauto)
  | case4 c d rest hcd ih =>
    simp only [removePairs]
    rw [if_neg hcd]
    intro x hx
    rcases List.mem_cons.mp hx with h | h
    · simp [h]
    · rcases List.mem_cons.mp (ih h) with h' | h' <;> simp [h']

theorem clean_text_le255 (l : List Char) :
    ∀ c ∈ clean_text l, c.toNat ≤ 255 := by
  intro c hc
  unfold clean_text at hc
  rw [List.mem_map] at hc
  obtain ⟨x, -, rfl⟩ := hc
  by_cases h : x.toNat ≤ 255 <;> simp [h]

theorem pdfLine_safe (raw : List Char) :
    (pdfLine raw).all pdfOpSafe = true := by
  have hclean := clean_text_le255 raw
  rw [List.all_eq_true]
  intro op hop
  unfold pdfLine at hop
  dsimp only at hop
  have hsub : ∀ m : List Char, m ⊆ clean_text raw →
      latin1Safe (String.mk m) = true := by
    intro m hm
    simp only [latin1Safe]
    rw [List.all_eq_true]
    intro c hc
    simpa using hclean c (hm hc)
  split_ifs at hop with h1 h2 h3 h4 h5
  · simp only [List.mem_singleton] at hop
    subst hop; rfl
  · simp only [List.mem_cons, List.not_mem_nil, or_false] at hop
    rcases hop with rfl | rfl | rfl
    · decide
    · simpa [pdfOpSafe] using
        hsub _ ((ResearchPlanner.pyStrip_subset _).trans (List.drop_subset 2 _))
    · decide
  · simp only [List.mem_cons, List.not_mem_nil, or_false] at hop
    rcases hop with rfl | rfl | rfl
    · decide
    · simpa [pdfOpSafe] using
        hsub _ ((ResearchPlanner.pyStrip_subset _).trans (List.drop_subset 3 _))
    · decide
  · simp only [List.mem_cons, List.not_mem_nil, or_false] at hop
    rcases hop with rfl | rfl | rfl
    · decide
    · simpa [pdfOpSafe] using
        hsub _ ((ResearchPlanner.pyStrip_subset _).trans (List.drop_subset 4 _))
    · decide
  · simp only [List.mem_cons, List.not_mem_nil, or_false] at hop
    rcases hop with rfl | rfl
    · rfl
    · simp only [pdfOpSafe, latin1Safe]
      rw [List.all_eq_true]
      intro c hc
      simp only [List.mem_cons] at hc
      rcases hc with rfl | rfl | hc
      · decide
      · decide
      · exact decide_eq_true <| by
          simpa using hclean c
            ((ResearchPlanner.pyStrip_subset _).trans (List.drop_subset 2 _) hc)
  · simp only [List.mem_singleton] at hop
    subst hop
    simpa [pdfOpSafe] using
      hsub _ ((removePairs_subset '_' '_' _).trans (removePairs_subset '*' '*' _))

end ResearchUtils

/- ### Claim C6: the task parser on the spec's example -/

namespace ResearchPlanner

/-- C6, counterexample: on the input
`"1. Find data - details\n2) Check sources\n\n3 - Summarize"` the parser
does not return the three claimed tasks: the item `"3 - Summarize"` has
whitespace between the integer and the separator, which
`^(\d+)[\.\)\-]` does not match, so only two tasks are produced. -/
theorem parse_tasks_example_not_three_tasks :
    parse_tasks "1. Find data - details\n2) Check sources\n\n3 - Summarize" ≠
      [⟨"1", "Find data - details"⟩, ⟨"2", "Check sources"⟩,
       ⟨"3", "Summarize"⟩] := by
  decide

/-- C6, amended: the example input yields exactly the two tasks whose
separator immediately follows the integer; with the separator placed
directly after the integer (`"3. Summarize"` or `"3- Summarize"`) all
three tasks are extracted with ordinals and bodies exactly as
written. -/
theorem parse_tasks_example_two_tasks :
    parse_tasks "1. Find data - details\n2) Check sources\n\n3 - Summarize" =
      [⟨"1", "Find data - details"⟩, ⟨"2", "Check sources"⟩] ∧
    parse_tasks "1. Find data - details\n2) Check sources\n\n3. Summarize" =
      [⟨"1", "Find data - details"⟩, ⟨"2", "Check sources"⟩,
       ⟨"3", "Summarize"⟩] ∧
    parse_tasks "1. Find data - details\n2) Check sources\n\n3- Summarize" =
      [⟨"1", "Find data - details"⟩, ⟨"2", "Check sources"⟩,
       ⟨"3", "Summarize"⟩] := by
  refine ⟨by decide, by decide, by decide⟩

end ResearchPlanner

namespace ResearchUtils

/- ### Claim C8: DOCX rendering of a bold span -/

/-- C8, counterexample: `generate_docx "**bold** and plain"` does not
produce a body consisting of a single paragraph with exactly two runs
(`"bold"` bold, `" and plain"` plain): the regex split yields a leading
empty string, and `add_run('')` still creates a run, so the paragraph
has three runs. -/
theorem generate_docx_bold_example_not_two_runs :
    generate_docx "**bold** and plain" ≠
      [.heading 0 "Research Report",
       .para [⟨"bold", true⟩, ⟨" and plain", false⟩]] := by
  decide

/-- C8, amended: the body beyond the fixed title heading is a single
paragraph with three runs — a leading empty unstyled run (from the empty
string `re.split` emits before a match at the start of the line), then
`"bold"` styled bold, then `" and plain"` unstyled; its non-empty runs
are exactly two, the first bold and the second not. -/
theorem generate_docx_bold_example_runs :
    generate_docx "**bold** and plain" =
      [.heading 0 "Research Report",
       .para [⟨"", false⟩, ⟨"bold", true⟩, ⟨" and plain", false⟩]] ∧
    (paraRuns "**bold** and plain".data).filter
        (fun r => r.text ≠ "") =
      [⟨"bold", true⟩, ⟨" and plain", false⟩] := by
  refine ⟨by decide, by decide⟩

/- ### Claim C9: PDF rendering never emits unencodable characters -/

/-- C9: `generate_pdf` is a total function (the embedding returns a
document for every input), and every piece of text it hands to the FPDF
object is Latin-1 representable — each character outside the target
encoding having been replaced by `'?'` in `clean_text` before rendering
— so the encoding step of the core-font renderer can never hit an
unrepresentable character and abort. -/
theorem generate_pdf_latin1 (text : String) :
    (generate_pdf text).all pdfOpSafe = true := by
  unfold generate_pdf
  rw [List.all_eq_true]
  intro op hop
  simp only [List.mem_cons] at hop
  rcases hop with rfl | rfl | rfl | hop
  · decide
  · decide
  · decide
  · rw [List.mem_flatMap] at hop
    obtain ⟨line, -, hmem⟩ := hop
    exact List.all_eq_true.mp (pdfLine_safe line) op hmem

end ResearchUtils

/- ### Helper lemmas: the polling loop -/

namespace ResearchPlanner

theorem okInProgress_elim {r : Except String Interaction}
    (h : okInProgress r = true) :
    ∃ i, r = .ok i ∧ i.status = "in_progress" := by
  cases r with
  | ok i => exact ⟨i, rfl, by simpa [okInProgress] using h⟩
  | error e => simp [okInProgress] at h

theorem isErr_elim {r : Except String Interaction} (h : isErr r = true) :
    ∃ e, r = .error e := by
  cases r with
  | ok i => simp [isErr] at h
  | error e => exact ⟨e, rfl⟩

/-- If the status client reports `in_progress` for the first `k` calls
made inside the loop and something else at call `k`, and call `k`
happens strictly before the timeout, the loop returns that interaction
after exactly `k + 1` calls and `k` sleeps. -/
theorem waitLoop_done (get : GetStatus) (timeout : Nat) (i : Interaction) :
    ∀ k fuel elapsed n : Nat,
    (∀ j < k, okInProgress (get (n + j)) = true) →
    get (n + k) = .ok i →
    i.status ≠ "in_progress" →
    elapsed + POLLING_INTERVAL * k < timeout →
    timeout ≤ elapsed + POLLING_INTERVAL * fuel →
    waitLoop get timeout fuel elapsed n = (.done i, k + 1, k) := by
  intro k
  induction k with
  | zero =>
    intro fuel elapsed n hprog hget hst hlt hfuel
    simp only [POLLING_INTERVAL] at hlt hfuel
    match fuel with
    | 0 => omega
    | fuel + 1 =>
      unfold waitLoop
      rw [if_pos (by omega)]
      rw [Nat.add_zero] at hget
      rw [hget]
      dsimp only
      rw [if_neg hst]
  | succ k ih =>
    intro fuel elapsed n hprog hget hst hlt hfuel
    simp only [POLLING_INTERVAL] at hlt hfuel
    match fuel with
    | 0 => omega
    | fuel + 1 =>
      unfold waitLoop
      rw [if_pos (by omega)]
      obtain ⟨i0, hok, hs⟩ := okInProgress_elim (hprog 0 (Nat.succ_pos k))
      rw [Nat.add_zero] at hok
      rw [hok]
      dsimp only
      rw [if_pos hs]
      have hrec := ih fuel (elapsed + POLLING_INTERVAL) (n + 1)
        (fun j hj => by
          have := hprog (j + 1) (by omega)
          rwa [show n + (j + 1) = n + 1 + j by omega] at this)
        (by rwa [show n + 1 + k = n + (k + 1) by omega])
        hst
        (by simp only [POLLING_INTERVAL]; omega)
        (by simp only [POLLING_INTERVAL]; omega)
      simp only [hrec]

/-- If the status client always reports `in_progress`, the loop runs its
guard to exhaustion: `⌈(timeout - elapsed) / POLLING_INTERVAL⌉` calls,
each followed by a sleep, then falls through. -/
theorem waitLoop_inprog (get : GetStatus) (timeout : Nat)
    (hall : ∀ m, okInProgress (get m) = true) :
    ∀ fuel elapsed n : Nat,
    timeout ≤ elapsed + POLLING_INTERVAL * fuel →
    waitLoop get timeout fuel elapsed n =
      (.fallthrough, ceilDiv (timeout - elapsed) POLLING_INTERVAL,
        ceilDiv (timeout - elapsed) POLLING_INTERVAL) := by
  intro fuel
  induction fuel with
  | zero =>
    intro elapsed n hfuel
    simp only [POLLING_INTERVAL] at hfuel
    unfold waitLoop
    have h0 : timeout - elapsed = 0 := by omega
    rw [h0]
    simp [ceilDiv, POLLING_INTERVAL]
  | succ fuel ih =>
    intro elapsed n hfuel
    unfold waitLoop
    by_cases h : elapsed < timeout
    · rw [if_pos h]
      obtain ⟨i0, hok, hs⟩ := okInProgress_elim (hall n)
      rw [hok]
      dsimp only
      rw [if_pos hs]
      rw [ih (elapsed + POLLING_INTERVAL) (n + 1)
        (by simp only [POLLING_INTERVAL] at hfuel ⊢; omega)]
      have harith :
          ceilDiv (timeout - elapsed) POLLING_INTERVAL =
            ceilDiv (timeout - (elapsed + POLLING_INTERVAL))
              POLLING_INTERVAL + 1 := by
        simp only [ceilDiv, POLLING_INTERVAL]
        omega
      rw [harith]
    · rw [if_neg h]
      have h0 : timeout - elapsed = 0 := by omega
      rw [h0]
      simp [ceilDiv, POLLING_INTERVAL]

/-- If the status client reports `in_progress` for the first `k` calls
and raises at call `k` (still before the timeout), the loop breaks after
exactly `k + 1` calls and `k` sleeps and falls through. -/
theorem waitLoop_error (get : GetStatus) (timeout : Nat) :
    ∀ k fuel elapsed n : Nat,
    (∀ j < k, okInProgress (get (n + j)) = true) →
    isErr (get (n + k)) = true →
    elapsed + POLLING_INTERVAL * k < timeout →
    timeout ≤ elapsed + POLLING_INTERVAL * fuel →
    waitLoop get timeout fuel elapsed n = (.fallthrough, k + 1, k) := by
  intro k
  induction k with
  | zero =>
    intro fuel elapsed n hprog herr hlt hfuel
    simp only [POLLING_INTERVAL] at hlt hfuel
    match fuel with
    | 0 => omega
    | fuel + 1 =>
      unfold waitLoop
      rw [if_pos (by omega)]
      obtain ⟨e, he⟩ := isErr_elim herr
      rw [Nat.add_zero] at he
      rw [he]
  | succ k ih =>
    intro fuel elapsed n hprog herr hlt hfuel
    simp only [POLLING_INTERVAL] at hlt hfuel
    match fuel with
    | 0 => omega
    | fuel + 1 =>
      unfold waitLoop
      rw [if_pos (by omega)]
      obtain ⟨i0, hok, hs⟩ := okInProgress_elim (hprog 0 (Nat.succ_pos k))
      rw [Nat.add_zero] at hok
      rw [hok]
      dsimp only
      rw [if_pos hs]
      have hrec := ih fuel (elapsed + POLLING_INTERVAL) (n + 1)
        (fun j hj => by
          have := hprog (j + 1) (by omega)
          rwa [show n + (j + 1) = n + 1 + j by omega] at this)
        (by rw [show n + 1 + k = n + (k + 1) by omega]; exact herr)
        (by simp only [POLLING_INTERVAL]; omega)
        (by simp only [POLLING_INTERVAL]; omega)
      simp only [hrec]

/- ### Claim C3: poll count until the first non-`in_progress` report -/

/-- C3, counterexample: for the status client whose first
non-`in_progress` report occurs at its second query (elapsed time
`t = POLLING_INTERVAL = 3`), the poller makes 2 status queries while
`⌈t / poll_interval⌉ = 1`: the claimed count is off by one (the query at
elapsed time 0 is not accounted for). -/
theorem wait_poll_count_not_ceil :
    (wait_for_completion completesAtSecondCall TIMEOUT).totalCalls = 2 ∧
    ceilDiv POLLING_INTERVAL POLLING_INTERVAL = 1 ∧
    (wait_for_completion completesAtSecondCall TIMEOUT).totalCalls ≠
      ceilDiv POLLING_INTERVAL POLLING_INTERVAL := by
  refine ⟨by decide, by decide, by decide⟩

/-- C3, amended: if the status client reports `in_progress` at every
query before query `k` and a non-`in_progress` interaction at query `k`
(which occurs at elapsed time `t = POLLING_INTERVAL * k`, still before
the timeout), the poller returns that interaction as soon as it is
reported, issues no further status queries afterward, and the total
number of status queries made is exactly `⌈t / poll_interval⌉ + 1` (one
query at time 0 plus one per interval up to and including time `t`) —
not `⌈t / poll_interval⌉`. -/
theorem wait_for_completion_first_report (get : GetStatus) (timeout : Nat)
    (i : Interaction) (k : Nat)
    (hprog : ∀ j < k, okInProgress (get j) = true)
    (hget : get k = .ok i)
    (hst : i.status ≠ "in_progress")
    (hlt : POLLING_INTERVAL * k < timeout) :
    wait_for_completion get timeout =
      ⟨.ok i, k + 1, POLLING_INTERVAL * k⟩ ∧
    k + 1 = ceilDiv (POLLING_INTERVAL * k) POLLING_INTERVAL + 1 := by
  constructor
  · unfold wait_for_completion
    rw [waitLoop_done get timeout i k (timeout + 1) 0 0
      (by simpa using hprog) (by simpa using hget) hst
      (by simpa using hlt) (by simp only [POLLING_INTERVAL]; omega)]
  · simp only [ceilDiv, POLLING_INTERVAL]
    omega

/-- Witness for C3 (amended), at the concrete client completing on its
second query. -/
theorem wait_for_completion_first_report_witness :
    wait_for_completion completesAtSecondCall TIMEOUT =
      ⟨.ok ⟨"job", "completed", [some "r"]⟩, 2, POLLING_INTERVAL⟩ := by
  have h := (wait_for_completion_first_report completesAtSecondCall TIMEOUT
    ⟨"job", "completed", [some "r"]⟩ 1 (by decide) (by decide) (by decide)
    (by decide)).1
  exact h.trans (by decide)

/- ### Claim C4: behavior when the client never leaves `in_progress` -/

/-- C4: with a status client that always reports `in_progress` and never
fails, the poller terminates after exactly `⌈timeout / poll_interval⌉`
in-loop queries plus one final unconditional query, having slept for
`poll_interval * ⌈timeout / poll_interval⌉ < timeout + poll_interval`
wall-clock seconds, and returns (with no error raised) an Interaction
whose status is still `in_progress`. -/
theorem wait_for_completion_timeout_behavior (get : GetStatus)
    (timeout : Nat) (hall : ∀ m, okInProgress (get m) = true) :
    wait_for_completion get timeout =
      ⟨get (ceilDiv timeout POLLING_INTERVAL),
       ceilDiv timeout POLLING_INTERVAL + 1,
       POLLING_INTERVAL * ceilDiv timeout POLLING_INTERVAL⟩ ∧
    (∃ i, (wait_for_completion get timeout).result = .ok i ∧
      i.status = "in_progress") ∧
    (wait_for_completion get timeout).sleepSeconds <
      timeout + POLLING_INTERVAL := by
  have hmain : wait_for_completion get timeout =
      ⟨get (ceilDiv timeout POLLING_INTERVAL),
       ceilDiv timeout POLLING_INTERVAL + 1,
       POLLING_INTERVAL * ceilDiv timeout POLLING_INTERVAL⟩ := by
    unfold wait_for_completion
    rw [waitLoop_inprog get timeout hall (timeout + 1) 0 0
      (by simp only [POLLING_INTERVAL]; omega)]
    rw [Nat.sub_zero]
  refine ⟨hmain, ?_, ?_⟩
  · obtain ⟨i, hok, hs⟩ :=
      okInProgress_elim (hall (ceilDiv timeout POLLING_INTERVAL))
    exact ⟨i, by rw [hmain]; exact hok, hs⟩
  · rw [hmain]
    simp only [ceilDiv, POLLING_INTERVAL]
    omega

/-- Witness for C4, at the always-`in_progress` client and the default
timeout of 300 seconds: 100 in-loop queries, one final query, 300
seconds of sleeping. -/
theorem wait_for_completion_timeout_behavior_witness :
    wait_for_completion alwaysInProgress TIMEOUT =
      ⟨.ok ⟨"job", "in_progress", []⟩, 101, 300⟩ := by
  have h := (wait_for_completion_timeout_behavior alwaysInProgress TIMEOUT
    (fun _ => rfl)).1
  exact h.trans (by decide)

/- ### Claim C5: a single mid-poll query failure -/

/-- C5: if the status client reports `in_progress` at every query before
query `k` and raises at query `k` (still before the timeout), the
polling loop stops at that failure, and the function makes exactly one
more (final) status query, `k + 2` in total: the returned outcome is
exactly the final query's — its Interaction if it succeeds, its
propagated failure if it also raises.  There is no further retrying. -/
theorem wait_for_completion_single_failure (get : GetStatus)
    (timeout : Nat) (k : Nat)
    (hprog : ∀ j < k, okInProgress (get j) = true)
    (herr : isErr (get k) = true)
    (hlt : POLLING_INTERVAL * k < timeout) :
    wait_for_completion get timeout =
      ⟨get (k + 1), k + 2, POLLING_INTERVAL * k⟩ := by
  unfold wait_for_completion
  rw [waitLoop_error get timeout k (timeout + 1) 0 0
    (by simpa using hprog) (by simpa using herr) (by simpa using hlt)
    (by simp only [POLLING_INTERVAL]; omega)]

/-- Witness for C5, at the client that raises exactly at its second
query: the final (third) query succeeds and its Interaction is
returned. -/
theorem wait_for_completion_single_failure_witness :
    wait_for_completion failsAtSecondCall TIMEOUT =
      ⟨.ok ⟨"job", "in_progress", []⟩, 3, POLLING_INTERVAL⟩ := by
  have h := wait_for_completion_single_failure failsAtSecondCall TIMEOUT 1
    (by decide) (by decide) (by decide)
  exact h.trans (by decide)

/- ### Helper lemmas: the orchestrator invariant -/

theorem isSome_of_truthy {o : Option String} (h : truthyStr o = true) :
    o.isSome = true := by
  cases o with
  | none => simp [truthyStr] at h
  | some s => rfl

theorem sessionInv_init : SessionInv init_session_state := by
  refine ⟨?_, ?_, ?_⟩ <;> intro h <;>
    simp [init_session_state, truthyStr] at h

theorem sessionInv_step (s : SessionState) (e : Event) (h : SessionInv s) :
    SessionInv (step s e) := by
  obtain ⟨h1, h2, h3⟩ := h
  cases e with
  | reset => exact sessionInv_init
  | generatePlan goal res =>
    simp only [step]
    split
    · exact ⟨h1, h2, h3⟩
    · cases res with
      | error e => exact ⟨h1, h2, h3⟩
      | ok i =>
        refine ⟨fun _ => rfl, fun _ => rfl, fun hsyn => h3 hsyn⟩
  | startResearch sel createRes statusClient =>
    simp only [step]
    split
    case isFalse => exact ⟨h1, h2, h3⟩
    case isTrue hguard =>
      cases createRes with
      | error e => exact ⟨h1, h2, h3⟩
      | ok i0 =>
        dsimp only
        cases hw : (wait_for_completion statusClient TIMEOUT).result with
        | error e => exact ⟨h1, h2, h3⟩
        | ok i =>
          have hplan : s.plan_id.isSome = true :=
            h1 (by
              rw [Bool.and_eq_true] at hguard
              exact hguard.1)
          exact ⟨fun _ => hplan, fun _ => hplan, fun _ => rfl⟩
  | generateReport synthRes imgRes =>
    simp only [step]
    split
    case isFalse => exact ⟨h1, h2, h3⟩
    case isTrue hguard =>
      cases synthRes with
      | error e => exact ⟨h1, h2, h3⟩
      | ok i =>
        have hres : s.research_id.isSome = true := isSome_of_truthy hguard
        cases imgRes with
        | error e => exact ⟨h1, fun hr => h2 hr, fun _ => hres⟩
        | ok parts =>
          dsimp only
          cases parts.findSome? id with
          | none => exact ⟨h1, fun hr => h2 hr, fun _ => hres⟩
          | some b => exact ⟨h1, fun hr => h2 hr, fun _ => hres⟩

theorem sessionInv_run (events : List Event) : SessionInv (run events) := by
  suffices hgen : ∀ (l : List Event) (s : SessionState),
      SessionInv s → SessionInv (l.foldl step s) from
    hgen events init_session_state sessionInv_init
  intro l
  induction l with
  | nil => intro s hs; exact hs
  | cons e l ih => intro s hs; exact ih (step s e) (sessionInv_step s e hs)

/- ### Claim C1: phase-order invariant of the session state -/

/-- C1: in every state reachable from a fresh session by user-triggered
phases, the research interaction id is set only if the plan interaction
id is set, and the synthesis text only if the research interaction id is
set; moreover the research phase with an empty task selection (or
without a truthy plan text) is a no-op, so the research fields can only
ever be set by a trigger at which at least one task was selected. -/
theorem phase_order_invariant (events : List Event) :
    ((run events).research_id.isSome = true →
      (run events).plan_id.isSome = true) ∧
    ((run events).synthesis_text.isSome = true →
      (run events).research_id.isSome = true) ∧
    ∀ (s : SessionState) (sel : List Bool)
      (cr : Except String Interaction) (gs : GetStatus),
      selectedTasks s.tasks sel = [] ∨ truthyStr s.plan_text = false →
      step s (.startResearch sel cr gs) = s := by
  obtain ⟨h1, h2, h3⟩ := sessionInv_run events
  refine ⟨h2, h3, ?_⟩
  intro s sel cr gs hcase
  simp only [step]
  rw [if_neg]
  rcases hcase with hsel | hplan
  · simp [hsel]
  · simp [hplan]

/-- Witness for C1, at a concrete trace that reaches the `RESEARCHED`
phase, and at the empty-selection no-op on a fresh session. -/
theorem phase_order_invariant_witness :
    (run demoTrace).research_id.isSome = true ∧
    (run demoTrace).plan_id.isSome = true ∧
    step init_session_state
      (.startResearch [] (.ok planInteraction) researchDoneClient) =
      init_session_state :=
  ⟨by decide, (phase_order_invariant demoTrace).1 (by decide),
    (phase_order_invariant []).2.2 init_session_state []
      (.ok planInteraction) researchDoneClient (Or.inl (by decide))⟩

/- ### Claim C2: atomicity on remote failure -/

/-- C2: a failure raised by the remote client during the Generate Plan
call, or during the synthesis call of Generate Report, leaves every
session-state field exactly as it was before the attempt — the failed
phase performs no assignment and the state machine does not advance. -/
theorem remote_failure_atomic (s : SessionState) (goal e : String)
    (imgRes : Except String (List (Option Bytes))) :
    step s (.generatePlan goal (.error e)) = s ∧
    step s (.generateReport (.error e) imgRes) = s := by
  constructor
  · simp only [step]
    split <;> rfl
  · simp only [step]
    split <;> rfl

/- ### Claim C7: infographic failure is non-fatal -/

/-- C7: when the synthesis call of Generate Report succeeds, a failure
raised by the infographic sub-step is caught separately: the synthesis
text is stored, every other field — the infographic included — is
unchanged, and in particular a session with no previously stored
infographic reaches the `SYNTHESIZED` state with a text-only report. -/
theorem infographic_failure_nonfatal (s : SessionState) (i : Interaction)
    (e : String) (h : truthyStr s.research_id = true) :
    step s (.generateReport (.ok i) (.error e)) =
      { s with synthesis_text := some (get_text i.outputs) } ∧
    (s.infographic = none →
      (step s (.generateReport (.ok i) (.error e))).infographic = none) := by
  have hstep : step s (.generateReport (.ok i) (.error e)) =
      { s with synthesis_text := some (get_text i.outputs) } := by
    simp only [step]
    rw [if_pos h]
  refine ⟨hstep, ?_⟩
  intro hnone
  rw [hstep]
  exact hnone

/-- Witness for C7, at a concrete `RESEARCHED` state with no stored
infographic. -/
theorem infographic_failure_nonfatal_witness :
    truthyStr researchedState.research_id = true ∧
    step researchedState
      (.generateReport (.ok synthInteraction) (.error "image model down")) =
      { researchedState with synthesis_text := some "Report body" } := by
  refine ⟨by decide, ?_⟩
  have h := (infographic_failure_nonfatal researchedState synthInteraction
    "image model down" (by decide)).1
  exact h.trans (by decide)

/- ### Claim C10: a stale infographic is never cleared -/

/-- C10: Generate Report never clears a previously stored infographic
before its image sub-step; if, on a repeated run whose synthesis
succeeds, the infographic sub-step fails — or succeeds without any
inline image part — the previously stored bytes remain in session state
and the report view displays them alongside the newly stored synthesis
text. -/
theorem stale_infographic_persists (s : SessionState) (i : Interaction)
    (e : String) (parts : List (Option Bytes)) (b : Bytes)
    (hrid : truthyStr s.research_id = true)
    (hinfo : s.infographic = some b) (hb : b ≠ [])
    (htext : get_text i.outputs ≠ "")
    (hnone : parts.findSome? id = none) :
    (step s (.generateReport (.ok i) (.error e))).infographic = some b ∧
    (step s (.generateReport (.ok i) (.error e))).synthesis_text =
      some (get_text i.outputs) ∧
    reportShowsInfographic (step s (.generateReport (.ok i) (.error e))) =
      true ∧
    (step s (.generateReport (.ok i) (.ok parts))).infographic = some b ∧
    (step s (.generateReport (.ok i) (.ok parts))).synthesis_text =
      some (get_text i.outputs) ∧
    reportShowsInfographic (step s (.generateReport (.ok i) (.ok parts))) =
      true := by
  have hfail : step s (.generateReport (.ok i) (.error e)) =
      { s with synthesis_text := some (get_text i.outputs) } := by
    simp only [step]
    rw [if_pos hrid]
  have hnopart : step s (.generateReport (.ok i) (.ok parts)) =
      { s with synthesis_text := some (get_text i.outputs) } := by
    simp only [step]
    rw [if_pos hrid, hnone]
  have hshow : reportShowsInfographic
      { s with synthesis_text := some (get_text i.outputs) } = true := by
    simp only [reportShowsInfographic, truthyStr, truthyBytes, hinfo]
    simp [htext, hb]
  refine ⟨?_, ?_, ?_, ?_, ?_, ?_⟩
  · rw [hfail]; exact hinfo
  · rw [hfail]
  · rw [hfail]; exact hshow
  · rw [hnopart]; exact hinfo
  · rw [hnopart]
  · rw [hnopart]; exact hshow

/-- Witness for C10, at a concrete stale state holding earlier
infographic bytes, an image failure, and an image response with no
inline image part. -/
theorem stale_infographic_persists_witness :
    (step staleState
      (.generateReport (.ok synthInteraction) (.error "image model down"))
      ).infographic = some [137, 80, 78, 71] ∧
    (step staleState
      (.generateReport (.ok synthInteraction) (.ok [none, none]))
      ).infographic = some [137, 80, 78, 71] ∧
    reportShowsInfographic (step staleState
      (.generateReport (.ok synthInteraction) (.error "image model down"))) =
      true := by
  have h := stale_infographic_persists staleState synthInteraction
    "image model down" [none, none] [137, 80, 78, 71]
    (by decide) (by decide) (by decide) (by decide) (by decide)
  exact ⟨h.1, h.2.2.2.1, h.2.2.1⟩

end ResearchPlanner
